import Mathlib

/-
  Verification of the frax conversation/tool-call orchestration engine
  (pkg/llm: agent.go, structured.go, request.go, response.go, base.go).

  Shallow embedding conventions:
  - json.RawMessage payloads are modelled as Lean Strings (byte strings).
  - Go interfaces (LLM, Tool) become function-valued records / function types.
  - context.Context is modelled by the one observation point the agent code
    has: whether ctx.Done() wins the select during the backoff wait that
    precedes a given retry attempt (agent.go executeToolWithRetry).
  - fallible Go calls (value, error) become Except String.
  - encoding/json behaviour on RawMessage (Marshal = validate + compact +
    HTML-escape, Indent = validate + re-indent) is modelled by a small JSON
    reader and two serializers below; the JSON value keeps number and string
    tokens verbatim, as Go's compactor does.
-/

/-! ## JSON payload model (for encoding/json Marshal/Indent on RawMessage) -/

/-- JSON values; number literals and raw (still escaped) string bodies are
kept verbatim so that re-serialization preserves the source token text,
mirroring Go's scanner-based compactor. -/
inductive Json where
  | null : Json
  | boolean : Bool → Json
  | number : List Char → Json
  | str : List Char → Json
  | array : List Json → Json
  | object : List (List Char × Json) → Json

/-- Go JSON whitespace: space, tab, newline, carriage return. -/
def isJsonWs (c : Char) : Bool :=
  c = ' ' || c = '\t' || c = '\n' || c = '\r'

def skipWs : List Char → List Char
  | [] => []
  | c :: cs => if isJsonWs c then skipWs cs else c :: cs

def isHexChar (c : Char) : Bool :=
  c.isDigit || ('a' ≤ c && c ≤ 'f') || ('A' ≤ c && c ≤ 'F')

def isEscChar (c : Char) : Bool :=
  c = '"' || c = '\\' || c = '/' || c = 'b' || c = 'f' || c = 'n' || c = 'r' || c = 't'

/-- Parse the body of a JSON string literal after the opening quote; returns
the raw body (escape sequences kept verbatim) and the rest after the closing
quote. -/
def parseStrRest : List Char → Option (List Char × List Char)
  | [] => none
  | '"' :: cs => some ([], cs)
  | '\\' :: 'u' :: h1 :: h2 :: h3 :: h4 :: cs =>
    if isHexChar h1 && isHexChar h2 && isHexChar h3 && isHexChar h4 then
      (parseStrRest cs).map (fun p => ('\\' :: 'u' :: h1 :: h2 :: h3 :: h4 :: p.1, p.2))
    else none
  | '\\' :: c :: cs =>
    if isEscChar c then (parseStrRest cs).map (fun p => ('\\' :: c :: p.1, p.2))
    else none
  | c :: cs =>
    if c.toNat < 32 then none
    else (parseStrRest cs).map (fun p => (c :: p.1, p.2))

def spanDigits : List Char → List Char × List Char
  | [] => ([], [])
  | c :: cs =>
    if c.isDigit then
      let p := spanDigits cs
      (c :: p.1, p.2)
    else ([], c :: cs)

/-- Integer part of a JSON number: 0, or a nonzero digit followed by digits. -/
def parseIntPart : List Char → Option (List Char × List Char)
  | [] => none
  | '0' :: cs => some (['0'], cs)
  | c :: cs =>
    if c.isDigit then
      let p := spanDigits cs
      some (c :: p.1, p.2)
    else none

/-- Optional fraction part: a dot must be followed by one or more digits. -/
def parseFracPart : List Char → Option (List Char × List Char)
  | '.' :: cs =>
    let p := spanDigits cs
    if p.1.isEmpty then none else some ('.' :: p.1, p.2)
  | cs => some ([], cs)

/-- Optional exponent part. -/
def parseExpPart : List Char → Option (List Char × List Char)
  | [] => some ([], [])
  | c :: cs =>
    if c = 'e' || c = 'E' then
      match cs with
      | '+' :: cs2 =>
        let p := spanDigits cs2
        if p.1.isEmpty then none else some (c :: '+' :: p.1, p.2)
      | '-' :: cs2 =>
        let p := spanDigits cs2
        if p.1.isEmpty then none else some (c :: '-' :: p.1, p.2)
      | cs2 =>
        let p := spanDigits cs2
        if p.1.isEmpty then none else some (c :: p.1, p.2)
    else some ([], c :: cs)

/-- Parse a JSON number token, keeping its literal characters. -/
def parseNumberToken (cs : List Char) : Option (Json × List Char) :=
  let sign : List Char × List Char :=
    match cs with
    | '-' :: r => (['-'], r)
    | _ => ([], cs)
  match parseIntPart sign.2 with
  | none => none
  | some (ip, cs2) =>
    match parseFracPart cs2 with
    | none => none
    | some (fp, cs3) =>
      match parseExpPart cs3 with
      | none => none
      | some (ep, cs4) => some (Json.number (sign.1 ++ ip ++ fp ++ ep), cs4)

mutual

/-- Parse one JSON value (after optional leading whitespace). `fuel` only
bounds recursion depth; `parseJson` supplies enough for any input. -/
def parseValue : Nat → List Char → Option (Json × List Char)
  | 0, _ => none
  | Nat.succ fuel, cs =>
    match skipWs cs with
    | 'n' :: 'u' :: 'l' :: 'l' :: rest => some (Json.null, rest)
    | 't' :: 'r' :: 'u' :: 'e' :: rest => some (Json.boolean true, rest)
    | 'f' :: 'a' :: 'l' :: 's' :: 'e' :: rest => some (Json.boolean false, rest)
    | '"' :: rest => (parseStrRest rest).map (fun p => (Json.str p.1, p.2))
    | '[' :: rest =>
      match skipWs rest with
      | ']' :: rest2 => some (Json.array [], rest2)
      | rest2 => (parseArrayItems fuel rest2).map (fun p => (Json.array p.1, p.2))
    | '\x7b' :: rest =>
      match skipWs rest with
      | '\x7d' :: rest2 => some (Json.object [], rest2)
      | rest2 => (parseObjItems fuel rest2).map (fun p => (Json.object p.1, p.2))
    | rest => parseNumberToken rest

/-- Parse the non-empty comma-separated items of an array, up to `]`. -/
def parseArrayItems : Nat → List Char → Option (List Json × List Char)
  | 0, _ => none
  | Nat.succ fuel, cs =>
    match parseValue fuel cs with
    | none => none
    | some (v, rest) =>
      match skipWs rest with
      | ',' :: rest2 => (parseArrayItems fuel rest2).map (fun p => (v :: p.1, p.2))
      | ']' :: rest2 => some ([v], rest2)
      | _ => none

/-- Parse the non-empty comma-separated members of an object, up to the
closing brace. -/
def parseObjItems : Nat → List Char → Option (List (List Char × Json) × List Char)
  | 0, _ => none
  | Nat.succ fuel, cs =>
    match skipWs cs with
    | '"' :: rest =>
      match parseStrRest rest with
      | none => none
      | some (key, rest2) =>
        match skipWs rest2 with
        | ':' :: rest3 =>
          match parseValue fuel rest3 with
          | none => none
          | some (v, rest4) =>
            match skipWs rest4 with
            | ',' :: rest5 => (parseObjItems fuel rest5).map (fun p => ((key, v) :: p.1, p.2))
            | '\x7d' :: rest5 => some ([(key, v)], rest5)
            | _ => none
        | _ => none
    | _ => none

end

/-- Parse a full JSON document: one value with only whitespace around it. -/
def parseJson (s : String) : Option Json :=
  let cs := s.toList
  match parseValue (2 * cs.length + 4) cs with
  | some (v, rest) => if (skipWs rest).isEmpty then some v else none
  | none => none

/-- encoding/json's HTML-safe escaping applied by Marshal to raw bytes:
`<`, `>`, `&`, U+2028 and U+2029 are rewritten to \u-escapes. -/
def escapeHtmlChar (c : Char) : List Char :=
  if c = '<' then "\\u003c".toList
  else if c = '>' then "\\u003e".toList
  else if c = '&' then "\\u0026".toList
  else if c.toNat = 0x2028 then "\\u2028".toList
  else if c.toNat = 0x2029 then "\\u2029".toList
  else [c]

def escapeHtml (cs : List Char) : List Char :=
  cs.flatMap escapeHtmlChar

mutual

/-- Compact serialization (whitespace-free), with HTML escaping, as
performed by encoding/json Marshal on a valid RawMessage. -/
def compactValue : Json → List Char
  | Json.null => "null".toList
  | Json.boolean true => "true".toList
  | Json.boolean false => "false".toList
  | Json.number lit => lit
  | Json.str raw => '"' :: (escapeHtml raw ++ ['"'])
  | Json.array items => '[' :: (compactItems items ++ [']'])
  | Json.object fields => '\x7b' :: (compactFields fields ++ ['\x7d'])

def compactItems : List Json → List Char
  | [] => []
  | [x] => compactValue x
  | x :: y :: xs => compactValue x ++ ',' :: compactItems (y :: xs)

def compactFields : List (List Char × Json) → List Char
  | [] => []
  | [(k, v)] => '"' :: (escapeHtml k ++ '"' :: ':' :: compactValue v)
  | (k, v) :: f :: fs =>
    ('"' :: (escapeHtml k ++ '"' :: ':' :: compactValue v)) ++ ',' :: compactFields (f :: fs)

end

def indentChars (depth : Nat) : List Char :=
  List.replicate (2 * depth) ' '

mutual

/-- Indented serialization with two-space indent, as performed by
encoding/json Indent (which does not HTML-escape). -/
def indentValue : Json → Nat → List Char
  | Json.null, _ => "null".toList
  | Json.boolean true, _ => "true".toList
  | Json.boolean false, _ => "false".toList
  | Json.number lit, _ => lit
  | Json.str raw, _ => '"' :: (raw ++ ['"'])
  | Json.array [], _ => "[]".toList
  | Json.array (x :: xs), depth =>
    '[' :: '\n' :: (indentChars (depth + 1) ++ indentItems (x :: xs) (depth + 1)
      ++ '\n' :: (indentChars depth ++ [']']))
  | Json.object [], _ => "\x7b\x7d".toList
  | Json.object (f :: fs), depth =>
    '\x7b' :: '\n' :: (indentChars (depth + 1) ++ indentFields (f :: fs) (depth + 1)
      ++ '\n' :: (indentChars depth ++ ['\x7d']))

def indentItems : List Json → Nat → List Char
  | [], _ => []
  | [x], depth => indentValue x depth
  | x :: y :: xs, depth =>
    indentValue x depth ++ ',' :: '\n' :: (indentChars depth ++ indentItems (y :: xs) depth)

def indentFields : List (List Char × Json) → Nat → List Char
  | [], _ => []
  | [(k, v)], depth => '"' :: (k ++ '"' :: ':' :: ' ' :: indentValue v depth)
  | (k, v) :: f :: fs, depth =>
    ('"' :: (k ++ '"' :: ':' :: ' ' :: indentValue v depth))
      ++ ',' :: '\n' :: (indentChars depth ++ indentFields (f :: fs) depth)

end

/-- Model of Go `json.Marshal(data)` for `data : json.RawMessage`:
RawMessage.MarshalJSON returns the bytes verbatim and the encoder then
compacts them (validating, stripping insignificant whitespace and applying
HTML escaping); invalid JSON makes Marshal fail. -/
def marshalRawMessage (s : String) : Except String String :=
  match parseJson s with
  | some v => Except.ok (String.mk (compactValue v))
  | none => Except.error "json: error calling MarshalJSON for type json.RawMessage"

/-- agent.go prettyJSON: json.Indent into a buffer; on error the raw string
is returned unchanged. -/
def prettyJSON (data : String) : String :=
  match parseJson data with
  | some v => String.mk (indentValue v 0)
  | none => data


/-! ## Message model (structured.go: messages section) -/

/-- json.RawMessage payloads, modelled as strings. -/
abbrev RawMessage := String

/-- ToolCall (structured.go): ID, Name, Args. -/
structure ToolCall where
  ID : String
  Name : String
  Args : RawMessage
deriving DecidableEq, Repr

/-- MessageKind (structured.go). -/
inductive MessageKind where
  | text : MessageKind
  | toolCall : MessageKind
  | toolResult : MessageKind
deriving DecidableEq, Repr

/-- MessageRole (structured.go). -/
inductive MessageRole where
  | user : MessageRole
  | assistant : MessageRole
  | system : MessageRole
  | tool : MessageRole
deriving DecidableEq, Repr

/-- The closed set of Message implementations in structured.go:
UserMessage, AssistantMessage, SystemMessage, ToolCallMessage,
ToolResultMessage, ToolErrorMessage. -/
inductive Message where
  | userMessage (content : String) : Message
  | assistantMessage (content : String) : Message
  | systemMessage (content : String) : Message
  | toolCallMessage (toolCall : ToolCall) : Message
  | toolResultMessage (toolCall : ToolCall) (result : RawMessage) : Message
  | toolErrorMessage (toolCall : ToolCall) (error : String) : Message
deriving DecidableEq, Repr

/-- The Kind() methods of the six message types. -/
def Message.kind : Message → MessageKind
  | .userMessage _ => .text
  | .assistantMessage _ => .text
  | .systemMessage _ => .text
  | .toolCallMessage _ => .toolCall
  | .toolResultMessage _ _ => .toolResult
  | .toolErrorMessage _ _ => .toolResult

/-- The Role() methods of the six message types (note: ToolErrorMessage's
Role() is assistant in the source). -/
def Message.role : Message → MessageRole
  | .userMessage _ => .user
  | .assistantMessage _ => .assistant
  | .systemMessage _ => .system
  | .toolCallMessage _ => .assistant
  | .toolResultMessage _ _ => .tool
  | .toolErrorMessage _ _ => .assistant

def NewUserMessage (content : String) : Message :=
  Message.userMessage content

def NewToolCallMessage (toolCall : ToolCall) : Message :=
  Message.toolCallMessage toolCall

def NewToolResultMessage (toolCall : ToolCall) (result : RawMessage) : Message :=
  Message.toolResultMessage toolCall result

/-- NewToolResultErrorMessage (structured.go): a ToolResultMessage whose
Result is json.RawMessage(error). -/
def NewToolResultErrorMessage (toolCall : ToolCall) (error : String) : Message :=
  Message.toolResultMessage toolCall error

def NewToolErrorMessage (toolCall : ToolCall) (error : String) : Message :=
  Message.toolErrorMessage toolCall error

/-! ## Tool contract and toolbox (structured.go: toolbox section) -/

/-- The Tool interface: identity, schemas, and Run. ctx is dropped: no tool
call site in the orchestration core consults it apart from passing it on. -/
structure Tool where
  name : String
  description : String
  inputSchemaRaw : RawMessage
  outputSchemaRaw : RawMessage
  run : RawMessage → Except String RawMessage

abbrev Toolbox := List Tool

/-- FindTool (structured.go): first tool with the given name, else
"tool not found". -/
def FindTool (name : String) (tools : Toolbox) : Except String Tool :=
  match tools with
  | [] => Except.error ("tool not found: " ++ name)
  | tool :: rest => if tool.name = name then Except.ok tool else FindTool name rest

/-- NewToolbox (structured.go): returns the given tools as-is — there is no
duplicate-name (or any other) validation. -/
def NewToolbox (tools : List Tool) : Toolbox :=
  tools

/-! ## Tool-usage policy (llm/tool_usage section) -/

/-- ToolUsage: AutoToolUsage or ForcedToolUsage{ToolName}. -/
inductive ToolUsage where
  | auto : ToolUsage
  | forced (toolName : String) : ToolUsage
deriving DecidableEq, Repr

def AutoToolSelection : ToolUsage := ToolUsage.auto

def ForceTool (toolName : String) : ToolUsage := ToolUsage.forced toolName

/-! ## Request / response envelope (request.go, response.go, base.go) -/

abbrev History := List Message

def NewHistory (messages : List Message) : History := messages

/-- LLMRequest (request.go). Temperature (Go float64) is modelled as a
rational; only its zero value matters to the orchestration core. -/
structure LLMRequest where
  System : String
  History : History
  Tools : List Tool
  ToolUsage : ToolUsage
  MaxCompletionTokens : Nat
  Temperature : Rat

/-- Functional options for LLMRequest, applied in order. -/
abbrev LLMRequestOpts := LLMRequest → LLMRequest

def WithToolUsage (toolUsage : ToolUsage) : LLMRequestOpts :=
  fun r => { r with ToolUsage := toolUsage }

/-- WithTools APPENDS the given tools to the request's existing tools
(request.go: r.Tools = append(r.Tools, tools...)). -/
def WithTools (tools : List Tool) : LLMRequestOpts :=
  fun r => { r with Tools := r.Tools ++ tools }

def WithSystem (system : String) : LLMRequestOpts :=
  fun r => { r with System := system }

def WithHistory (history : History) : LLMRequestOpts :=
  fun r => { r with History := history }

def WithMaxCompletionTokens (maxCompletionTokens : Nat) : LLMRequestOpts :=
  fun r => { r with MaxCompletionTokens := maxCompletionTokens }

def WithTemperature (temperature : Rat) : LLMRequestOpts :=
  fun r => { r with Temperature := temperature }

def applyRequestOpts (r : LLMRequest) (opts : List LLMRequestOpts) : LLMRequest :=
  opts.foldl (fun r opt => opt r) r

/-- NewLLMRequest (request.go): history and ToolUsage = Auto; every other
field starts at its Go zero value; then the options run in order. -/
def NewLLMRequest (history : History) (opts : List LLMRequestOpts) : LLMRequest :=
  applyRequestOpts
    { System := ""
      History := history
      Tools := []
      ToolUsage := AutoToolSelection
      MaxCompletionTokens := 0
      Temperature := 0 }
    opts

/-- LLMRequest.Clone (request.go): copy every field into a fresh value,
then run the options on the copy. -/
def LLMRequest.Clone (r : LLMRequest) (opts : List LLMRequestOpts) : LLMRequest :=
  applyRequestOpts
    { History := r.History
      ToolUsage := r.ToolUsage
      Tools := r.Tools
      System := r.System
      MaxCompletionTokens := r.MaxCompletionTokens
      Temperature := r.Temperature }
    opts

/-- LLMResponse (response.go): just the ordered message list. -/
structure LLMResponse where
  Messages : List Message
deriving DecidableEq, Repr

def NewLLMResponse : LLMResponse := { Messages := [] }

def LLMResponse.AddMessage (r : LLMResponse) (message : Message) : LLMResponse :=
  { r with Messages := r.Messages ++ [message] }

/-- LLMResponse.ToolCalls (response.go): filter the messages whose Kind() is
tool_call — in the closed message model these are exactly the
ToolCallMessage values — keeping emission order. -/
def LLMResponse.ToolCalls (r : LLMResponse) : List ToolCall :=
  r.Messages.filterMap (fun msg =>
    match msg with
    | Message.toolCallMessage toolCall => some toolCall
    | _ => none)

/-- The LLM interface (base.go): the model transport, as a pure function of
the request. -/
abbrev LLM := LLMRequest → Except String LLMResponse

/-! ## Structured-output wrapper (structured.go: BaseLLMWithStructuredOutput) -/

/-- BaseLLMWithStructuredOutput: the forced single-tool model façade. The
underlying llm is optional to model the Go nil-interface check in Invoke. -/
structure BaseLLMWithStructuredOutput where
  name : String
  description : String
  inputSchema : RawMessage
  llm : Option LLM

abbrev LLMWithStructuredOutputOpts := BaseLLMWithStructuredOutput → BaseLLMWithStructuredOutput

def WithName (name : String) : LLMWithStructuredOutputOpts :=
  fun f => { f with name := name }

def WithDescription (description : String) : LLMWithStructuredOutputOpts :=
  fun f => { f with description := description }

/-- NewBaseLLMWithStructuredOutput: defaults name="formatter",
description="Must be called to provide structured output". -/
def NewBaseLLMWithStructuredOutput (inputSchema : RawMessage) (llm : Option LLM)
    (opts : List LLMWithStructuredOutputOpts) : BaseLLMWithStructuredOutput :=
  opts.foldl (fun f opt => opt f)
    { name := "formatter"
      description := "Must be called to provide structured output"
      inputSchema := inputSchema
      llm := llm }

/-- ValidateInput: "For now, just return nil". -/
def BaseLLMWithStructuredOutput.ValidateInput (_f : BaseLLMWithStructuredOutput)
    (_input : RawMessage) : Except String Unit :=
  Except.ok ()

/-- Run: validate, then echo the arguments back (identity tool). -/
def BaseLLMWithStructuredOutput.Run (f : BaseLLMWithStructuredOutput)
    (args : RawMessage) : Except String RawMessage :=
  match f.ValidateInput args with
  | Except.error e => Except.error ("input validation failed: " ++ e)
  | Except.ok _ => Except.ok args

/-- The wrapper viewed as the Tool it passes to WithTools(f): its Run method
is the echo above; its output schema (per the Go interface set) mirrors the
input schema. -/
def BaseLLMWithStructuredOutput.asTool (f : BaseLLMWithStructuredOutput) : Tool :=
  { name := f.name
    description := f.description
    inputSchemaRaw := f.inputSchema
    outputSchemaRaw := f.inputSchema
    run := fun args => f.Run args }

/-- The forced request Invoke builds: the caller's history, exactly this
wrapper as the only tool, and ForceTool(f.Name()) — the caller's tools and
policy are discarded because NewLLMRequest starts from the zero request. -/
def structuredForcedRequest (f : BaseLLMWithStructuredOutput)
    (request : LLMRequest) : LLMRequest :=
  NewLLMRequest request.History
    [WithTools [f.asTool], WithToolUsage (ForceTool f.name)]

/-- BaseLLMWithStructuredOutput.Invoke (structured.go lines 99-143):
delegate to the underlying model with the forced request; take the FIRST
tool call of the response; echo its args through Run; json.Marshal the
resulting RawMessage; wrap the marshalled bytes in a single UserMessage. -/
def BaseLLMWithStructuredOutput.Invoke (f : BaseLLMWithStructuredOutput)
    (request : LLMRequest) : Except String LLMResponse :=
  match f.llm with
  | none => Except.error "no underlying LLM configured"
  | some llm =>
    match llm (structuredForcedRequest f request) with
    | Except.error e => Except.error ("underlying LLM invocation failed: " ++ e)
    | Except.ok response =>
      match response.ToolCalls with
      | toolCall :: _ =>
        match f.Run toolCall.Args with
        | Except.error e =>
          Except.error ("LLM with structured output tool execution failed: " ++ e)
        | Except.ok result =>
          match marshalRawMessage result with
          | Except.error e => Except.error ("failed to marshal result: " ++ e)
          | Except.ok content => Except.ok { Messages := [Message.userMessage content] }
      | [] =>
        Except.error "no tool call found in response - LLM did not follow forced tool usage"

/-! ## Agent (agent.go) -/

/-- Agent: model, toolbox, retry configuration. maxRetries is a Nat: the
claims under verification only concern maxRetries >= 0. retryDelay is in
milliseconds; delay arithmetic is carried but unobservable. -/
structure Agent where
  llm : LLM
  tools : List Tool
  maxRetries : Nat
  retryDelay : Rat
  retryBackoff : Rat

abbrev AgentOpts := Agent → Agent

def WithMaxRetries (maxRetries : Nat) : AgentOpts :=
  fun a => { a with maxRetries := maxRetries }

def WithRetryDelay (delay : Rat) : AgentOpts :=
  fun a => { a with retryDelay := delay }

def WithRetryBackoff (backoff : Rat) : AgentOpts :=
  fun a => { a with retryBackoff := backoff }

/-- NewAgent: defaults maxRetries=3, retryDelay=100ms, retryBackoff=2.0;
then the options run in order. No validation of the tool list happens. -/
def NewAgent (llm : LLM) (tools : List Tool) (opts : List AgentOpts) : Agent :=
  opts.foldl (fun a opt => opt a)
    { llm := llm
      tools := tools
      maxRetries := 3
      retryDelay := 100
      retryBackoff := 2 }

/-- Cancellation model. `cancelDuringWait i` says whether ctx.Done() wins
the select race during the backoff wait that precedes retry attempt i
(agent.go lines 120-129); `err` is ctx.Err(). The code observes the context
nowhere else. -/
structure Ctx where
  cancelDuringWait : Nat → Bool
  err : String

/-- A context that is never cancelled. -/
def Ctx.background : Ctx :=
  { cancelDuringWait := fun _ => false, err := "context canceled" }

/-- Agent.findTool: linear scan for the first name match. -/
def Agent.findTool (a : Agent) (name : String) : Except String Tool :=
  FindTool name a.tools

/-- Modelled from the spec: the embedded correction-prompt template
prompts/tool_call_correction.txt is not among the sources; spec 4.4 says
the prompt is a single synthetic user-role message stating the tool name,
the exact error text and the pretty-printed failed arguments. -/
def correctionPromptFormat (toolName errText prettyArgs : String) : String :=
  "Tool call to " ++ toolName ++ " failed with error: " ++ errText
    ++ "; failed parameters: " ++ prettyArgs
    ++ "; provide corrected parameters matching the tool input schema."

/-- Agent.correctToolCall (agent.go lines 205-231): build the one-message
correction prompt, wrap the agent's model in a structured-output formatter
over the tool's input schema, invoke it, and take Messages[0].(*UserMessage)
content as the corrected RawMessage. -/
def Agent.correctToolCall (a : Agent) (toolCall : ToolCall) (targetTool : Tool)
    (originalErr : String) : Except String RawMessage :=
  let errorMessage := NewUserMessage
    (correctionPromptFormat toolCall.Name originalErr (prettyJSON toolCall.Args))
  let retryRequest := NewLLMRequest (NewHistory [errorMessage]) []
  let formatter := NewBaseLLMWithStructuredOutput targetTool.inputSchemaRaw (some a.llm) []
  match formatter.Invoke retryRequest with
  | Except.error retryErr =>
    Except.error ("failed to get corrected parameters: " ++ retryErr)
  | Except.ok retryResponse =>
    match retryResponse.Messages with
    | Message.userMessage content :: _ => Except.ok content
    | _ => Except.error "LLM did not provide corrected parameters"

/-- updateToolCallArgs (agent.go lines 234-240): a fresh ToolCall keeping ID
and Name, with the corrected Args. -/
def Agent.updateToolCallArgs (_a : Agent) (originalToolCall : ToolCall)
    (newArgs : RawMessage) : ToolCall :=
  { ID := originalToolCall.ID
    Name := originalToolCall.Name
    Args := newArgs }

/-- Agent.handleToolFailure (agent.go lines 170-199): one correction
round-trip; on wrapper failure keep the current tool call; either way
shouldContinue is true. -/
def Agent.handleToolFailure (a : Agent) (toolCall : ToolCall) (targetTool : Tool)
    (_attempt : Nat) (err : String) : ToolCall × Bool :=
  match a.correctToolCall toolCall targetTool err with
  | Except.error _ => (toolCall, true)
  | Except.ok correctedArgs => (a.updateToolCallArgs toolCall correctedArgs, true)

/-- Agent.executeToolAttempt (agent.go lines 157-167). -/
def Agent.executeToolAttempt (_a : Agent) (toolCall : ToolCall) (targetTool : Tool) :
    Except String Message :=
  match targetTool.run toolCall.Args with
  | Except.error e => Except.error e
  | Except.ok result => Except.ok (Message.toolResultMessage toolCall result)

/-- The error built after the retry loop:
fmt.Errorf("tool call failed after %d retries: %w", maxRetries+1, lastErr). -/
def toolCallFailedAfter (n : Nat) (lastErr : String) : String :=
  "tool call failed after " ++ toString n ++ " retries: " ++ lastErr

deriving instance DecidableEq for Except

/-- Outcome of a dispatch, instrumented for counting: `execTrace` records
the tool call used by each execution attempt, in order; `corrections` counts
the correction round-trips (handleToolFailure invocations). -/
structure RetryResult where
  result : Except String Message
  execTrace : List ToolCall
  corrections : Nat
deriving DecidableEq, Repr

/-- The body of the retry loop of executeToolWithRetry (agent.go lines
115-154), as a recursion over the remaining loop iterations. The caller
establishes fuel = maxRetries + 1 - attempt, so fuel = 0 is the loop's exit
(returning the post-loop RetryExhausted error built from lastErr). Each
iteration: for attempt > 0, first the backoff select (cancellation returns
ctx.Err() at once), then the delay update; then one execution attempt; on
success return; on the last attempt break to the post-loop error; otherwise
one correction round-trip via handleToolFailure, rebinding the loop-local
current tool call. -/
def Agent.retryLoop (a : Agent) (ctx : Ctx) (targetTool : Tool) :
    Nat → Nat → ToolCall → Rat → Option String → List ToolCall → Nat → RetryResult
  | 0, _, _, _, lastErr, trace, cors =>
    { result := Except.error (toolCallFailedAfter (a.maxRetries + 1) (lastErr.getD ""))
      execTrace := trace
      corrections := cors }
  | Nat.succ fuel, attempt, currentToolCall, delay, _lastErr, trace, cors =>
    if 0 < attempt ∧ ctx.cancelDuringWait attempt = true then
      { result := Except.error ctx.err, execTrace := trace, corrections := cors }
    else
      let delay1 := if 0 < attempt then delay * a.retryBackoff else delay
      match a.executeToolAttempt currentToolCall targetTool with
      | Except.ok message =>
        { result := Except.ok message
          execTrace := trace ++ [currentToolCall]
          corrections := cors }
      | Except.error err =>
        if attempt = a.maxRetries then
          { result := Except.error (toolCallFailedAfter (a.maxRetries + 1) err)
            execTrace := trace ++ [currentToolCall]
            corrections := cors }
        else
          let p := a.handleToolFailure currentToolCall targetTool attempt err
          if p.2 then
            a.retryLoop ctx targetTool fuel (attempt + 1) p.1 delay1 (some err)
              (trace ++ [currentToolCall]) (cors + 1)
          else
            { result := Except.error (toolCallFailedAfter (a.maxRetries + 1) err)
              execTrace := trace ++ [currentToolCall]
              corrections := cors + 1 }

/-- Agent.executeToolWithRetry (agent.go lines 115-154): run the loop from
attempt 0 with the caller's tool call as the loop-local copy. -/
def Agent.executeToolWithRetry (a : Agent) (ctx : Ctx) (toolCall : ToolCall)
    (targetTool : Tool) : RetryResult :=
  a.retryLoop ctx targetTool (a.maxRetries + 1) 0 toolCall a.retryDelay none [] 0

/-- Agent.CallTool (agent.go lines 94-102): find the tool, then dispatch
with retry. -/
def Agent.CallTool (a : Agent) (ctx : Ctx) (toolCall : ToolCall) :
    Except String Message :=
  match a.findTool toolCall.Name with
  | Except.error e => Except.error e
  | Except.ok targetTool => (a.executeToolWithRetry ctx toolCall targetTool).result

/-- The message the tool-call loop of Agent.Invoke (agent.go lines 78-85)
appends for one tool call: the CallTool result message on success, or a
NewToolResultErrorMessage carrying err.Error() on failure. -/
def Agent.dispatchedMessage (a : Agent) (ctx : Ctx) (toolCall : ToolCall) : Message :=
  match a.CallTool ctx toolCall with
  | Except.ok message => message
  | Except.error e => NewToolResultErrorMessage toolCall e

/-- The for-loop over toolCalls in Agent.Invoke: append one dispatched
message per tool call, in emission order. -/
def Agent.dispatchToolCalls (a : Agent) (ctx : Ctx) (toolCalls : List ToolCall)
    (response : LLMResponse) : LLMResponse :=
  toolCalls.foldl (fun resp toolCall => resp.AddMessage (a.dispatchedMessage ctx toolCall)) response

/-- The request Agent.Invoke sends to the transport (agent.go lines 66-69):
the caller's request cloned, with the agent's tools APPENDED by WithTools
and the policy overridden to Auto. -/
def Agent.transportedRequest (a : Agent) (request : LLMRequest) : LLMRequest :=
  request.Clone [WithTools a.tools, WithToolUsage AutoToolSelection]

/-- The recursive request for the next turn (agent.go line 87):
NewLLMRequest(append(request.History, response.Messages...)) with no
options. -/
def nextTurnRequest (request : LLMRequest) (response : LLMResponse) : LLMRequest :=
  NewLLMRequest (request.History ++ response.Messages) []

/-- Agent.Invoke (agent.go lines 65-91), instrumented: besides the result
it returns the list of requests sent to the transport, one per turn. The Go
recursion has no turn cap, so the model takes fuel; `none` means the fuel
ran out before the model stopped calling tools. -/
def Agent.Invoke (a : Agent) (ctx : Ctx) :
    Nat → LLMRequest → Option (Except String LLMResponse) × List LLMRequest
  | 0, _ => (none, [])
  | Nat.succ fuel, request =>
    let req := a.transportedRequest request
    match a.llm req with
    | Except.error e => (some (Except.error e), [req])
    | Except.ok response =>
      match response.ToolCalls with
      | [] => (some (Except.ok response), [req])
      | toolCall :: rest =>
        let response1 := a.dispatchToolCalls ctx (toolCall :: rest) response
        let r := a.Invoke ctx fuel (nextTurnRequest request response1)
        (r.1, req :: r.2)

/-! ## Concrete fixtures (stub models and tools used by witnesses) -/

/-- A tool that fails on every invocation. -/
def c1tool : Tool :=
  { name := "boom", description := "always fails", inputSchemaRaw := "", outputSchemaRaw := ""
    run := fun _ => Except.error "boom" }

/-- A transport that always fails (so corrections fail too, which still
counts as a correction round-trip). -/
def c1llm : LLM := fun _ => Except.error "model down"

def c1agent : Agent := NewAgent c1llm [c1tool] [WithMaxRetries 2]

def c1call : ToolCall := { ID := "1", Name := "boom", Args := "[1, 2]" }

/-- Model response with two forced tool calls; the first carries
non-compact JSON args. -/
def c2resp : LLMResponse :=
  { Messages :=
      [Message.toolCallMessage { ID := "1", Name := "formatter", Args := "[1, 2]" },
       Message.toolCallMessage { ID := "2", Name := "formatter", Args := "[9]" }] }

def c2llm : LLM := fun _ => Except.ok c2resp

def c2f : BaseLLMWithStructuredOutput :=
  NewBaseLLMWithStructuredOutput "schema" (some c2llm) []

def c2req : LLMRequest := NewLLMRequest [Message.userMessage "give json"] []

def c3tool : Tool :=
  { name := "calc", description := "", inputSchemaRaw := "", outputSchemaRaw := ""
    run := fun _ => Except.ok "42" }

def c3llm : LLM := fun _ => Except.ok { Messages := [] }

def c3agent : Agent := NewAgent c3llm [c3tool] []

def c3call : ToolCall := { ID := "7", Name := "calc", Args := "[]" }

def c3resp : LLMResponse := { Messages := [Message.toolCallMessage c3call] }

def c4tool : Tool :=
  { name := "picky", description := "", inputSchemaRaw := "", outputSchemaRaw := ""
    run := fun args => if args = "[3]" then Except.ok "done" else Except.error "bad args" }

/-- A transport that answers any forced (structured-output) request with a
tool call whose args are "[3]". -/
def c4llm : LLM := fun req =>
  match req.ToolUsage with
  | ToolUsage.forced name =>
    Except.ok { Messages := [Message.toolCallMessage { ID := "c", Name := name, Args := "[3]" }] }
  | _ => Except.ok { Messages := [] }

def c4agent : Agent := NewAgent c4llm [c4tool] [WithMaxRetries 2]

def c4call : ToolCall := { ID := "9", Name := "picky", Args := "[1]" }

def c5resp : LLMResponse :=
  { Messages := [Message.toolCallMessage { ID := "1", Name := "formatter", Args := "[1, 2]" }] }

def c5llm : LLM := fun _ => Except.ok c5resp

def c5f : BaseLLMWithStructuredOutput :=
  NewBaseLLMWithStructuredOutput "schema" (some c5llm) []

def c5req : LLMRequest := NewLLMRequest [Message.userMessage "give json"] []

def callerTool : Tool :=
  { name := "caller_tool", description := "", inputSchemaRaw := "", outputSchemaRaw := ""
    run := fun _ => Except.ok "" }

def agentTool : Tool :=
  { name := "agent_tool", description := "", inputSchemaRaw := "", outputSchemaRaw := ""
    run := fun _ => Except.ok "" }

def c6llm : LLM := fun _ => Except.error "model down"

def c6agent : Agent := NewAgent c6llm [agentTool] []

/-- A caller request that already carries a tool of its own. -/
def c6req : LLMRequest := NewLLMRequest [] [WithTools [callerTool]]

def dupA : Tool :=
  { name := "dup", description := "first", inputSchemaRaw := "", outputSchemaRaw := ""
    run := fun _ => Except.ok "A" }

def dupB : Tool :=
  { name := "dup", description := "second", inputSchemaRaw := "", outputSchemaRaw := ""
    run := fun _ => Except.ok "B" }

def c7llm : LLM := fun _ => Except.ok { Messages := [] }

/-- A context whose cancellation signal fires (and stays fired) from the
first scheduled backoff wait on. -/
def c8ctx : Ctx :=
  { cancelDuringWait := fun i => decide (1 ≤ i), err := "context canceled" }

def c8agent : Agent := NewAgent c1llm [c1tool] [WithMaxRetries 2]

def c9call : ToolCall := { ID := "a", Name := "calc", Args := "[]" }

def c9resp : LLMResponse := { Messages := [Message.toolCallMessage c9call] }

/-- A transport that issues one tool call while the caller's system prompt
is present and otherwise answers with plain text. -/
def c9llm : LLM := fun req =>
  if req.System = "sys" then Except.ok c9resp
  else Except.ok { Messages := [Message.assistantMessage "done"] }

def c9agent : Agent := NewAgent c9llm [c3tool] []

def c9req : LLMRequest :=
  NewLLMRequest [Message.userMessage "q"]
    [WithSystem "sys", WithMaxCompletionTokens 5, WithTemperature 1]

/-- An agent with an empty toolbox, so any dispatch fails with
tool-not-found. -/
def c10agent : Agent := NewAgent c3llm [] []

def c10call : ToolCall := { ID := "g", Name := "ghost", Args := "[]" }

/-! ## Helper lemmas -/

/-- Both branches of handleToolFailure report shouldContinue = true. -/
theorem handleToolFailure_snd (a : Agent) (toolCall : ToolCall) (targetTool : Tool)
    (attempt : Nat) (err : String) :
    (a.handleToolFailure toolCall targetTool attempt err).2 = true := by
  unfold Agent.handleToolFailure
  cases a.correctToolCall toolCall targetTool err <;> rfl

/-- The dispatch loop appends exactly one dispatched message per tool call,
in order, to the response's message list. -/
theorem dispatchToolCalls_messages (a : Agent) (ctx : Ctx) (toolCalls : List ToolCall)
    (response : LLMResponse) :
    (a.dispatchToolCalls ctx toolCalls response).Messages =
      response.Messages ++ toolCalls.map (a.dispatchedMessage ctx) := by
  induction toolCalls generalizing response with
  | nil => simp [Agent.dispatchToolCalls]
  | cons toolCall rest ih =>
    have h : a.dispatchToolCalls ctx (toolCall :: rest) response =
        a.dispatchToolCalls ctx rest
          (response.AddMessage (a.dispatchedMessage ctx toolCall)) := rfl
    rw [h, ih]
    simp [LLMResponse.AddMessage]

/-- A successful single attempt returns the ToolResultMessage of the
attempted call and the tool's output. -/
theorem executeToolAttempt_ok (a : Agent) (toolCall : ToolCall) (targetTool : Tool)
    (message : Message)
    (h : a.executeToolAttempt toolCall targetTool = Except.ok message) :
    ∃ result, targetTool.run toolCall.Args = Except.ok result ∧
      message = Message.toolResultMessage toolCall result := by
  unfold Agent.executeToolAttempt at h
  cases hrun : targetTool.run toolCall.Args with
  | error e => rw [hrun] at h; simp at h
  | ok result =>
    rw [hrun] at h
    simp at h
    exact ⟨result, rfl, h.symm⟩

/-- Any successful outcome of the retry loop is a ToolResultMessage built
from an execution attempt that succeeded. -/
theorem retryLoop_ok_shape (a : Agent) (ctx : Ctx) (targetTool : Tool) :
    ∀ fuel attempt toolCall delay lastErr trace cors message,
      (a.retryLoop ctx targetTool fuel attempt toolCall delay lastErr trace cors).result =
        Except.ok message →
      ∃ tc result, message = Message.toolResultMessage tc result ∧
        targetTool.run tc.Args = Except.ok result := by
  intro fuel
  induction fuel with
  | zero =>
    intro attempt toolCall delay lastErr trace cors message h
    simp [Agent.retryLoop] at h
  | succ n ih =>
    intro attempt toolCall delay lastErr trace cors message h
    by_cases hc : 0 < attempt ∧ ctx.cancelDuringWait attempt = true
    · simp [Agent.retryLoop, hc] at h
    · simp only [Agent.retryLoop, if_neg hc] at h
      cases hrun : a.executeToolAttempt toolCall targetTool with
      | ok msg =>
        rw [hrun] at h
        simp at h
        obtain ⟨result, hres, hmsg⟩ := executeToolAttempt_ok a toolCall targetTool msg hrun
        exact ⟨toolCall, result, by rw [← h, hmsg], hres⟩
      | error err =>
        rw [hrun] at h
        by_cases hat : attempt = a.maxRetries
        · simp [hat] at h
        · simp only [if_neg hat, handleToolFailure_snd, if_true] at h
          exact ih _ _ _ _ _ _ _ h

/-- With an always-failing tool and no cancellation, the retry loop started
in sync (fuel + attempt = maxRetries + 1) executes once per remaining
iteration, performs one correction round-trip per non-final iteration, and
ends in the RetryExhausted error wrapping the final execution's error. -/
theorem retryLoop_all_fail (a : Agent) (ctx : Ctx) (targetTool : Tool)
    (hfail : ∀ args, ∃ e, targetTool.run args = Except.error e)
    (hnc : ∀ i, ctx.cancelDuringWait i = false) :
    ∀ fuel attempt toolCall delay lastErr trace cors,
      fuel + attempt = a.maxRetries + 1 → 1 ≤ fuel →
      ∃ (extra : List ToolCall) (tcLast : ToolCall) (e : String),
        (a.retryLoop ctx targetTool fuel attempt toolCall delay lastErr trace cors).result =
          Except.error (toolCallFailedAfter (a.maxRetries + 1) e) ∧
        (a.retryLoop ctx targetTool fuel attempt toolCall delay lastErr trace cors).execTrace =
          trace ++ (extra ++ [tcLast]) ∧
        (a.retryLoop ctx targetTool fuel attempt toolCall delay lastErr trace cors).corrections =
          cors + (fuel - 1) ∧
        extra.length + 1 = fuel ∧
        targetTool.run tcLast.Args = Except.error e := by
  intro fuel
  induction fuel with
  | zero =>
    intro attempt toolCall delay lastErr trace cors hsum hfuel
    omega
  | succ n ih =>
    intro attempt toolCall delay lastErr trace cors hsum _hfuel
    obtain ⟨e0, he0⟩ := hfail toolCall.Args
    have hcanc : ¬(0 < attempt ∧ ctx.cancelDuringWait attempt = true) := by simp [hnc]
    have hattempt : a.executeToolAttempt toolCall targetTool = Except.error e0 := by
      unfold Agent.executeToolAttempt
      rw [he0]
    cases n with
    | zero =>
      have hat : attempt = a.maxRetries := by omega
      refine ⟨[], toolCall, e0, ?_, ?_, ?_, by simp, he0⟩ <;>
        simp [Agent.retryLoop, hnc, hattempt, hat]
    | succ m =>
      have hat : ¬(attempt = a.maxRetries) := by omega
      have hstep :
          a.retryLoop ctx targetTool (Nat.succ (Nat.succ m)) attempt toolCall delay lastErr
              trace cors =
            a.retryLoop ctx targetTool (Nat.succ m) (attempt + 1)
              (a.handleToolFailure toolCall targetTool attempt e0).1
              (if 0 < attempt then delay * a.retryBackoff else delay)
              (some e0) (trace ++ [toolCall]) (cors + 1) := by
        simp only [Agent.retryLoop, if_neg hcanc, hattempt, if_neg hat, handleToolFailure_snd,
          if_true]
      obtain ⟨extra, tcLast, e, h1, h2, h3, h4, h5⟩ :=
        ih (attempt + 1) (a.handleToolFailure toolCall targetTool attempt e0).1
          (if 0 < attempt then delay * a.retryBackoff else delay) (some e0)
          (trace ++ [toolCall]) (cors + 1) (by omega) (by omega)
      refine ⟨toolCall :: extra, tcLast, e, ?_, ?_, ?_, by simp [← h4], h5⟩
      · rw [hstep]
        exact h1
      · rw [hstep, h2]
        simp
      · rw [hstep, h3]
        omega

/-- With an always-failing tool, when the (monotone) cancellation signal
first wins the select at backoff wait k, the retry loop started in sync
stops at wait k with ctx.Err(): attempts attempt..k-1 execute (each with
one correction round-trip) and nothing more runs. -/
theorem retryLoop_cancelled (a : Agent) (ctx : Ctx) (targetTool : Tool) (k : Nat)
    (hfail : ∀ args, ∃ e, targetTool.run args = Except.error e)
    (hc : ∀ i, ctx.cancelDuringWait i = decide (k ≤ i))
    (hk1 : 1 ≤ k) (hk2 : k ≤ a.maxRetries) :
    ∀ fuel attempt toolCall delay lastErr trace cors,
      fuel + attempt = a.maxRetries + 1 → attempt ≤ k →
      ∃ extra : List ToolCall,
        (a.retryLoop ctx targetTool fuel attempt toolCall delay lastErr trace cors).result =
          Except.error ctx.err ∧
        (a.retryLoop ctx targetTool fuel attempt toolCall delay lastErr trace cors).execTrace =
          trace ++ extra ∧
        extra.length = k - attempt ∧
        (a.retryLoop ctx targetTool fuel attempt toolCall delay lastErr trace cors).corrections =
          cors + (k - attempt) := by
  intro fuel
  induction fuel with
  | zero =>
    intro attempt toolCall delay lastErr trace cors hsum hle
    omega
  | succ n ih =>
    intro attempt toolCall delay lastErr trace cors hsum hle
    by_cases hak : attempt = k
    · subst hak
      have hcanc : 0 < attempt ∧ ctx.cancelDuringWait attempt = true := by
        constructor
        · omega
        · rw [hc]
          simp
      refine ⟨[], ?_, ?_, ?_, ?_⟩ <;> simp [Agent.retryLoop, if_pos hcanc]
    · have hlt : attempt < k := by omega
      have hcf : ctx.cancelDuringWait attempt = false := by
        rw [hc]
        simp
        omega
      have hcanc : ¬(0 < attempt ∧ ctx.cancelDuringWait attempt = true) := by simp [hcf]
      obtain ⟨e0, he0⟩ := hfail toolCall.Args
      have hattempt : a.executeToolAttempt toolCall targetTool = Except.error e0 := by
        unfold Agent.executeToolAttempt
        rw [he0]
      have hat : ¬(attempt = a.maxRetries) := by omega
      have hstep :
          a.retryLoop ctx targetTool (Nat.succ n) attempt toolCall delay lastErr trace cors =
            a.retryLoop ctx targetTool n (attempt + 1)
              (a.handleToolFailure toolCall targetTool attempt e0).1
              (if 0 < attempt then delay * a.retryBackoff else delay)
              (some e0) (trace ++ [toolCall]) (cors + 1) := by
        simp only [Agent.retryLoop, if_neg hcanc, hattempt, if_neg hat, handleToolFailure_snd,
          if_true]
      obtain ⟨extra, h1, h2, h3, h4⟩ :=
        ih (attempt + 1) (a.handleToolFailure toolCall targetTool attempt e0).1
          (if 0 < attempt then delay * a.retryBackoff else delay) (some e0)
          (trace ++ [toolCall]) (cors + 1) (by omega) (by omega)
      refine ⟨toolCall :: extra, ?_, ?_, by simp; omega, ?_⟩
      · rw [hstep]
        exact h1
      · rw [hstep, h2]
        simp
      · rw [hstep, h4]
        omega

/-! ## Claim theorems -/

/-- C1: for every maxRetries = N and every tool whose run fails on every
invocation (no cancellation interfering), executeToolWithRetry performs
exactly N+1 tool executions and exactly N correction round-trips through
the structured-output wrapper, and returns the RetryExhausted error
wrapping the error of the last execution attempt. -/
theorem executeToolWithRetry_bounded_retries (a : Agent) (ctx : Ctx)
    (toolCall : ToolCall) (targetTool : Tool)
    (hfail : ∀ args, ∃ e, targetTool.run args = Except.error e)
    (hnc : ∀ i, ctx.cancelDuringWait i = false) :
    ∃ (calls : List ToolCall) (lastCall : ToolCall) (lastErr : String),
      (a.executeToolWithRetry ctx toolCall targetTool).execTrace = calls ++ [lastCall] ∧
      (a.executeToolWithRetry ctx toolCall targetTool).execTrace.length = a.maxRetries + 1 ∧
      (a.executeToolWithRetry ctx toolCall targetTool).corrections = a.maxRetries ∧
      targetTool.run lastCall.Args = Except.error lastErr ∧
      (a.executeToolWithRetry ctx toolCall targetTool).result =
        Except.error (toolCallFailedAfter (a.maxRetries + 1) lastErr) := by
  obtain ⟨extra, tcLast, e, h1, h2, h3, h4, h5⟩ :=
    retryLoop_all_fail a ctx targetTool hfail hnc (a.maxRetries + 1) 0 toolCall a.retryDelay
      none [] 0 (by omega) (by omega)
  unfold Agent.executeToolWithRetry
  refine ⟨extra, tcLast, e, ?_, ?_, ?_, h5, h1⟩
  · rw [h2]
    simp
  · rw [h2]
    simp
    omega
  · rw [h3]
    omega

/-- C1 witness: maxRetries = 2 and an always-failing tool: three
executions, two correction round-trips, and the error wraps "boom". -/
theorem executeToolWithRetry_bounded_retries_witness :
    ∃ (calls : List ToolCall) (lastCall : ToolCall) (lastErr : String),
      (c1agent.executeToolWithRetry Ctx.background c1call c1tool).execTrace =
        calls ++ [lastCall] ∧
      (c1agent.executeToolWithRetry Ctx.background c1call c1tool).execTrace.length = 3 ∧
      (c1agent.executeToolWithRetry Ctx.background c1call c1tool).corrections = 2 ∧
      c1tool.run lastCall.Args = Except.error lastErr ∧
      (c1agent.executeToolWithRetry Ctx.background c1call c1tool).result =
        Except.error (toolCallFailedAfter 3 lastErr) :=
  executeToolWithRetry_bounded_retries c1agent Ctx.background c1call c1tool
    (fun _ => ⟨"boom", rfl⟩) (fun _ => rfl)

/-- C8: if the cancellation signal first fires during the scheduled backoff
wait preceding attempt k (1 ≤ k ≤ maxRetries) while the tool keeps failing,
the dispatch returns the context's error — never a tool-execution error —
and performs exactly k executions, so no further attempts run. -/
theorem executeToolWithRetry_cancellation (a : Agent) (ctx : Ctx)
    (toolCall : ToolCall) (targetTool : Tool) (k : Nat)
    (hfail : ∀ args, ∃ e, targetTool.run args = Except.error e)
    (hc : ∀ i, ctx.cancelDuringWait i = decide (k ≤ i))
    (hk1 : 1 ≤ k) (hk2 : k ≤ a.maxRetries) :
    (a.executeToolWithRetry ctx toolCall targetTool).result = Except.error ctx.err ∧
    (a.executeToolWithRetry ctx toolCall targetTool).execTrace.length = k ∧
    k < a.maxRetries + 1 := by
  obtain ⟨extra, h1, h2, h3, h4⟩ :=
    retryLoop_cancelled a ctx targetTool k hfail hc hk1 hk2 (a.maxRetries + 1) 0 toolCall
      a.retryDelay none [] 0 (by omega) (by omega)
  unfold Agent.executeToolWithRetry
  refine ⟨h1, ?_, by omega⟩
  rw [h2]
  simp
  omega

/-- C8 witness: cancellation firing from the first backoff wait on yields
the context's error after exactly one execution. -/
theorem executeToolWithRetry_cancellation_witness :
    (c8agent.executeToolWithRetry c8ctx c1call c1tool).result =
      Except.error "context canceled" ∧
    (c8agent.executeToolWithRetry c8ctx c1call c1tool).execTrace.length = 1 ∧
    (1 : Nat) < 3 :=
  executeToolWithRetry_cancellation c8agent c8ctx c1call c1tool 1
    (fun _ => ⟨"boom", rfl⟩) (fun _ => rfl) (by omega) (by decide)


/-- C2 counterexample: a stub model returns a first forced tool call with
args "[1, 2]"; Invoke succeeds but yields "[1,2]" — the argument payload is
re-marshalled (whitespace-compacted), not returned byte for byte. -/
theorem structuredOutput_not_byte_for_byte :
    c2f.Invoke c2req = Except.ok { Messages := [Message.userMessage "[1,2]"] } ∧
    c2resp.ToolCalls.head?.map ToolCall.Args = some "[1, 2]" ∧
    "[1,2]" ≠ "[1, 2]" :=
  ⟨by rfl, by rfl, by decide⟩

/-- C2 (amended): Invoke honours exactly the FIRST tool call of the
underlying model's response, in message emission order, discarding any
later calls without error; the returned payload is the first call's args
re-marshalled through encoding/json (compaction and escaping), not the
bytes themselves; and Invoke fails if and only if the underlying model
errors, the response contains no tool call, or the first call's payload is
not marshallable JSON. -/
theorem structuredOutput_first_call_payload (f : BaseLLMWithStructuredOutput) (m : LLM)
    (request : LLMRequest) (hm : f.llm = some m) :
    (∀ response toolCall rest content,
      m (structuredForcedRequest f request) = Except.ok response →
      response.ToolCalls = toolCall :: rest →
      marshalRawMessage toolCall.Args = Except.ok content →
      f.Invoke request = Except.ok { Messages := [Message.userMessage content] }) ∧
    ((∃ e, f.Invoke request = Except.error e) ↔
      (∃ e, m (structuredForcedRequest f request) = Except.error e) ∨
      (∃ response, m (structuredForcedRequest f request) = Except.ok response ∧
        (response.ToolCalls = [] ∨
         (∃ toolCall rest e, response.ToolCalls = toolCall :: rest ∧
           marshalRawMessage toolCall.Args = Except.error e)))) := by
  cases hml : m (structuredForcedRequest f request) with
  | error e =>
    have hinv : f.Invoke request = Except.error ("underlying LLM invocation failed: " ++ e) := by
      simp [BaseLLMWithStructuredOutput.Invoke, hm, hml]
    constructor
    · intro response toolCall rest content hok
      simp at hok
    · rw [hinv]
      constructor
      · intro _
        exact Or.inl ⟨e, rfl⟩
      · intro _
        exact ⟨"underlying LLM invocation failed: " ++ e, rfl⟩
  | ok response =>
    cases hcalls : response.ToolCalls with
    | nil =>
      have hinv : f.Invoke request =
          Except.error "no tool call found in response - LLM did not follow forced tool usage" := by
        simp [BaseLLMWithStructuredOutput.Invoke, hm, hml, hcalls]
      constructor
      · intro response1 toolCall rest content hok hcalls1 hmar1
        cases hok
        rw [hcalls] at hcalls1
        simp at hcalls1
      · rw [hinv]
        constructor
        · intro _
          exact Or.inr ⟨response, rfl, Or.inl hcalls⟩
        · intro _
          exact ⟨"no tool call found in response - LLM did not follow forced tool usage", rfl⟩
    | cons toolCall rest =>
      cases hmar : marshalRawMessage toolCall.Args with
      | ok content =>
        have hinv : f.Invoke request = Except.ok { Messages := [Message.userMessage content] } := by
          simp [BaseLLMWithStructuredOutput.Invoke, hm, hml, hcalls,
            BaseLLMWithStructuredOutput.Run, BaseLLMWithStructuredOutput.ValidateInput, hmar]
        constructor
        · intro response1 toolCall1 rest1 content1 hok hcalls1 hmar1
          cases hok
          rw [hcalls] at hcalls1
          cases hcalls1
          rw [hmar] at hmar1
          cases hmar1
          exact hinv
        · rw [hinv]
          constructor
          · intro h
            obtain ⟨e, he⟩ := h
            simp at he
          · intro h
            rcases h with ⟨e, he⟩ | ⟨response1, hok, hrest⟩
            · simp at he
            · cases hok
              rcases hrest with hnil | ⟨toolCall1, rest1, e, hcalls1, hmar1⟩
              · rw [hcalls] at hnil
                simp at hnil
              · rw [hcalls] at hcalls1
                cases hcalls1
                rw [hmar] at hmar1
                simp at hmar1
      | error e =>
        have hinv : f.Invoke request = Except.error ("failed to marshal result: " ++ e) := by
          simp [BaseLLMWithStructuredOutput.Invoke, hm, hml, hcalls,
            BaseLLMWithStructuredOutput.Run, BaseLLMWithStructuredOutput.ValidateInput, hmar]
        constructor
        · intro response1 toolCall1 rest1 content1 hok hcalls1 hmar1
          cases hok
          rw [hcalls] at hcalls1
          cases hcalls1
          rw [hmar] at hmar1
          simp at hmar1
        · rw [hinv]
          constructor
          · intro _
            exact Or.inr ⟨response, rfl, Or.inr ⟨toolCall, rest, e, hcalls, hmar⟩⟩
          · intro _
            exact ⟨"failed to marshal result: " ++ e, rfl⟩

/-- C2 witness: the first of two forced calls is honoured and the second is
discarded without error. -/
theorem structuredOutput_first_call_payload_witness :
    c2f.Invoke c2req = Except.ok { Messages := [Message.userMessage "[1,2]"] } :=
  (structuredOutput_first_call_payload c2f c2llm c2req rfl).1 c2resp
    { ID := "1", Name := "formatter", Args := "[1, 2]" }
    [{ ID := "2", Name := "formatter", Args := "[9]" }] "[1,2]" rfl rfl rfl

/-- C5 counterexample: the wrapper's single synthesized message has role
user, not assistant, and its content is the re-marshalled (compacted)
payload rather than the payload bytes. -/
theorem structuredOutput_message_role_user :
    c5f.Invoke c5req = Except.ok { Messages := [Message.userMessage "[1,2]"] } ∧
    (Message.userMessage "[1,2]").role = MessageRole.user ∧
    MessageRole.user ≠ MessageRole.assistant ∧
    "[1,2]" ≠ "[1, 2]" :=
  ⟨by rfl, rfl, by decide, by decide⟩

/-- C5 (amended): every successful invocation of the wrapper returns
exactly one synthesized text message — a UserMessage, role user — whose
content is the re-marshalled payload of the first (forced) tool call. -/
theorem structuredOutput_single_user_message (f : BaseLLMWithStructuredOutput)
    (request : LLMRequest) (response : LLMResponse)
    (h : f.Invoke request = Except.ok response) :
    ∃ content, response.Messages = [Message.userMessage content] ∧
      (Message.userMessage content).kind = MessageKind.text ∧
      (Message.userMessage content).role = MessageRole.user ∧
      ∃ (m : LLM) (modelResponse : LLMResponse) (toolCall : ToolCall) (rest : List ToolCall),
        f.llm = some m ∧
        m (structuredForcedRequest f request) = Except.ok modelResponse ∧
        modelResponse.ToolCalls = toolCall :: rest ∧
        marshalRawMessage toolCall.Args = Except.ok content := by
  cases hllm : f.llm with
  | none => simp [BaseLLMWithStructuredOutput.Invoke, hllm] at h
  | some m =>
    cases hml : m (structuredForcedRequest f request) with
    | error e => simp [BaseLLMWithStructuredOutput.Invoke, hllm, hml] at h
    | ok modelResponse =>
      cases hcalls : modelResponse.ToolCalls with
      | nil => simp [BaseLLMWithStructuredOutput.Invoke, hllm, hml, hcalls] at h
      | cons toolCall rest =>
        cases hmar : marshalRawMessage toolCall.Args with
        | error e =>
          simp [BaseLLMWithStructuredOutput.Invoke, hllm, hml, hcalls,
            BaseLLMWithStructuredOutput.Run, BaseLLMWithStructuredOutput.ValidateInput, hmar] at h
        | ok content =>
          have hinv : f.Invoke request =
              Except.ok { Messages := [Message.userMessage content] } := by
            simp [BaseLLMWithStructuredOutput.Invoke, hllm, hml, hcalls,
              BaseLLMWithStructuredOutput.Run, BaseLLMWithStructuredOutput.ValidateInput, hmar]
          rw [hinv] at h
          cases h
          exact ⟨content, rfl, rfl, rfl, m, modelResponse, toolCall, rest, rfl, hml, hcalls, hmar⟩

/-- C5 witness. -/
theorem structuredOutput_single_user_message_witness :
    ∃ content,
      ({ Messages := [Message.userMessage "[1,2]"] } : LLMResponse).Messages =
        [Message.userMessage content] ∧
      (Message.userMessage content).kind = MessageKind.text ∧
      (Message.userMessage content).role = MessageRole.user ∧
      ∃ (m : LLM) (modelResponse : LLMResponse) (toolCall : ToolCall) (rest : List ToolCall),
        c5f.llm = some m ∧
        m (structuredForcedRequest c5f c5req) = Except.ok modelResponse ∧
        modelResponse.ToolCalls = toolCall :: rest ∧
        marshalRawMessage toolCall.Args = Except.ok content :=
  structuredOutput_single_user_message c5f c5req
    { Messages := [Message.userMessage "[1,2]"] } (by rfl)

/-- C3: every tool call of a turn is dispatched to exactly one appended
message, in emission order — never dropped, never aborting the loop — and
the appended message is the dispatch's result message (a ToolResultMessage)
on success, or NewToolResultErrorMessage(toolCall, err) when the dispatch
fails (retries exhausted or tool-not-found). -/
theorem dispatch_one_message_per_call (a : Agent) (ctx : Ctx)
    (toolCalls : List ToolCall) (response : LLMResponse) :
    ((a.dispatchToolCalls ctx toolCalls response).Messages =
      response.Messages ++ toolCalls.map (a.dispatchedMessage ctx)) ∧
    (∀ toolCall message, a.CallTool ctx toolCall = Except.ok message →
      a.dispatchedMessage ctx toolCall = message ∧
      ∃ tc result, message = Message.toolResultMessage tc result) ∧
    (∀ toolCall e, a.CallTool ctx toolCall = Except.error e →
      a.dispatchedMessage ctx toolCall = NewToolResultErrorMessage toolCall e) := by
  refine ⟨dispatchToolCalls_messages a ctx toolCalls response, ?_, ?_⟩
  · intro toolCall message hok
    constructor
    · unfold Agent.dispatchedMessage
      rw [hok]
    · unfold Agent.CallTool at hok
      cases hft : a.findTool toolCall.Name with
      | error e =>
        rw [hft] at hok
        simp at hok
      | ok targetTool =>
        rw [hft] at hok
        unfold Agent.executeToolWithRetry at hok
        obtain ⟨tc, result, hmsg, _⟩ := retryLoop_ok_shape a ctx targetTool _ _ _ _ _ _ _ _ hok
        exact ⟨tc, result, hmsg⟩
  · intro toolCall e herr
    unfold Agent.dispatchedMessage
    rw [herr]

/-- C3 witness. -/
theorem dispatch_one_message_per_call_witness :
    ((c3agent.dispatchToolCalls Ctx.background [c3call] c3resp).Messages =
      c3resp.Messages ++ [c3call].map (c3agent.dispatchedMessage Ctx.background)) ∧
    (c3agent.dispatchedMessage Ctx.background c3call =
        Message.toolResultMessage c3call "42" ∧
      ∃ tc result,
        Message.toolResultMessage c3call "42" = Message.toolResultMessage tc result) :=
  ⟨(dispatch_one_message_per_call c3agent Ctx.background [c3call] c3resp).1,
   (dispatch_one_message_per_call c3agent Ctx.background [c3call] c3resp).2.1 c3call
     (Message.toolResultMessage c3call "42") (by rfl)⟩

/-- C4: in each retry iteration, handleToolFailure always continues; the
next attempt's tool call keeps the original ID and Name, with Args replaced
by the corrected payload when the wrapper correction succeeds and left
exactly the previous call when it fails; and the retry loop proceeds to the
next iteration with precisely that call (the model is pure, so the caller's
ToolCall value itself is never mutated — mirroring the fresh value the
source constructs). -/
theorem handleToolFailure_preserves_call (a : Agent) (ctx : Ctx) (targetTool : Tool)
    (toolCall : ToolCall) (attempt : Nat) (e : String) (fuel : Nat) (delay : Rat)
    (lastErr : Option String) (trace : List ToolCall) (cors : Nat)
    (hrun : targetTool.run toolCall.Args = Except.error e)
    (hat : ¬(attempt = a.maxRetries))
    (hnc : ctx.cancelDuringWait attempt = false) :
    ((a.handleToolFailure toolCall targetTool attempt e).2 = true) ∧
    ((a.handleToolFailure toolCall targetTool attempt e).1.ID = toolCall.ID) ∧
    ((a.handleToolFailure toolCall targetTool attempt e).1.Name = toolCall.Name) ∧
    (∀ corrected, a.correctToolCall toolCall targetTool e = Except.ok corrected →
      (a.handleToolFailure toolCall targetTool attempt e).1.Args = corrected) ∧
    (∀ werr, a.correctToolCall toolCall targetTool e = Except.error werr →
      (a.handleToolFailure toolCall targetTool attempt e).1 = toolCall) ∧
    (a.retryLoop ctx targetTool (fuel + 1) attempt toolCall delay lastErr trace cors =
      a.retryLoop ctx targetTool fuel (attempt + 1)
        (a.handleToolFailure toolCall targetTool attempt e).1
        (if 0 < attempt then delay * a.retryBackoff else delay)
        (some e) (trace ++ [toolCall]) (cors + 1)) := by
  have hattempt : a.executeToolAttempt toolCall targetTool = Except.error e := by
    unfold Agent.executeToolAttempt
    rw [hrun]
  have hcanc : ¬(0 < attempt ∧ ctx.cancelDuringWait attempt = true) := by simp [hnc]
  refine ⟨handleToolFailure_snd a toolCall targetTool attempt e, ?_, ?_, ?_, ?_, ?_⟩
  · unfold Agent.handleToolFailure
    cases hcc : a.correctToolCall toolCall targetTool e with
    | error werr => rfl
    | ok corrected => rfl
  · unfold Agent.handleToolFailure
    cases hcc : a.correctToolCall toolCall targetTool e with
    | error werr => rfl
    | ok corrected => rfl
  · intro corrected hcc
    unfold Agent.handleToolFailure
    rw [hcc]
    rfl
  · intro werr hcc
    unfold Agent.handleToolFailure
    rw [hcc]
  · simp only [Agent.retryLoop, if_neg hcanc, hattempt, if_neg hat, handleToolFailure_snd,
      if_true]

/-- C4 witness: the correction oracle returns "[3]"; the next attempt keeps
ID and Name and carries the corrected args. -/
theorem handleToolFailure_preserves_call_witness :
    ((c4agent.handleToolFailure c4call c4tool 0 "bad args").2 = true) ∧
    ((c4agent.handleToolFailure c4call c4tool 0 "bad args").1.ID = c4call.ID) ∧
    ((c4agent.handleToolFailure c4call c4tool 0 "bad args").1.Name = c4call.Name) ∧
    ((c4agent.handleToolFailure c4call c4tool 0 "bad args").1.Args = "[3]") :=
  let h := handleToolFailure_preserves_call c4agent Ctx.background c4tool c4call 0 "bad args"
    2 c4agent.retryDelay none [] 0 rfl (by decide) rfl
  ⟨h.1, h.2.1, h.2.2.1, h.2.2.2.1 "[3]" (by rfl)⟩

/-- C6 counterexample: for a caller request that already carries a tool,
WithTools appends, so the transported request's tool set is the caller's
tools followed by the toolbox — not equal to the toolbox. -/
theorem transported_tools_not_toolbox :
    (c6agent.transportedRequest c6req).Tools.map Tool.name = ["caller_tool", "agent_tool"] ∧
    c6agent.tools.map Tool.name = ["agent_tool"] ∧
    (c6agent.transportedRequest c6req).Tools.map Tool.name ≠ c6agent.tools.map Tool.name :=
  ⟨by rfl, by rfl, by decide⟩

/-- C6 (amended): the transported request is the caller's request cloned
with the agent's toolbox APPENDED to the caller's tools (equal to the
toolbox only when the caller carried none) and the tool-usage policy set to
Auto, all other fields preserved; a transport failure is propagated
immediately after that single transport invocation, with no retry. -/
theorem transportedRequest_spec (a : Agent) (request : LLMRequest) :
    ((a.transportedRequest request).Tools = request.Tools ++ a.tools) ∧
    ((a.transportedRequest request).ToolUsage = ToolUsage.auto) ∧
    ((a.transportedRequest request).System = request.System) ∧
    ((a.transportedRequest request).History = request.History) ∧
    ((a.transportedRequest request).MaxCompletionTokens = request.MaxCompletionTokens) ∧
    ((a.transportedRequest request).Temperature = request.Temperature) ∧
    (∀ ctx fuel e, a.llm (a.transportedRequest request) = Except.error e →
      a.Invoke ctx (fuel + 1) request = (some (Except.error e), [a.transportedRequest request])) := by
  refine ⟨rfl, rfl, rfl, rfl, rfl, rfl, ?_⟩
  intro ctx fuel e he
  simp only [Agent.Invoke]
  rw [he]

/-- C6 witness: the transport error "model down" surfaces after exactly one
transport call. -/
theorem transportedRequest_spec_witness :
    c6agent.Invoke Ctx.background 1 c6req =
      (some (Except.error "model down"), [c6agent.transportedRequest c6req]) :=
  (transportedRequest_spec c6agent c6req).2.2.2.2.2.2 Ctx.background 0 "model down" rfl

/-- C7 counterexample: NewToolbox and NewAgent accept a list with two tools
of the same name — construction succeeds, nothing is rejected. -/
theorem newToolbox_accepts_duplicates :
    dupA.name = dupB.name ∧
    NewToolbox [dupA, dupB] = [dupA, dupB] ∧
    (NewToolbox [dupA, dupB]).length = 2 ∧
    (NewAgent c7llm [dupA, dupB] []).tools = [dupA, dupB] :=
  ⟨rfl, rfl, rfl, rfl⟩

/-- C7 (amended): toolbox construction performs no duplicate-name (or any)
validation: NewToolbox returns exactly the list it is given and NewAgent
stores it unchanged, so duplicate names still yield a successfully
constructed toolbox; name lookup then resolves to the first tool carrying
the name. -/
theorem newToolbox_no_validation (tools : List Tool) :
    NewToolbox tools = tools ∧
    (∀ llm, (NewAgent llm tools []).tools = tools) ∧
    (∀ (t : Tool) (rest : List Tool), FindTool t.name (t :: rest) = Except.ok t) := by
  refine ⟨rfl, fun llm => rfl, fun t rest => ?_⟩
  unfold FindTool
  rw [if_pos rfl]

/-- C9: when a turn contains tool calls, the recursive request for the next
turn is built by NewLLMRequest from the concatenated history alone: its
System is empty, MaxCompletionTokens and Temperature are zero, its tool
list is empty and its tool usage is the default Auto — so the caller's
system prompt and generation parameters reach only the first transport
invocation. -/
theorem nextTurn_request_resets_params (a : Agent) (ctx : Ctx) (fuel : Nat)
    (request : LLMRequest) (response : LLMResponse) (toolCall : ToolCall)
    (rest : List ToolCall)
    (hresp : a.llm (a.transportedRequest request) = Except.ok response)
    (hcalls : response.ToolCalls = toolCall :: rest) :
    (a.Invoke ctx (fuel + 1) request =
      ((a.Invoke ctx fuel
          (nextTurnRequest request
            (a.dispatchToolCalls ctx (toolCall :: rest) response))).1,
        a.transportedRequest request ::
          (a.Invoke ctx fuel
            (nextTurnRequest request
              (a.dispatchToolCalls ctx (toolCall :: rest) response))).2)) ∧
    (∀ response1 : LLMResponse,
      (nextTurnRequest request response1).System = "" ∧
      (nextTurnRequest request response1).MaxCompletionTokens = 0 ∧
      (nextTurnRequest request response1).Temperature = 0 ∧
      (nextTurnRequest request response1).ToolUsage = ToolUsage.auto ∧
      (nextTurnRequest request response1).Tools = [] ∧
      (nextTurnRequest request response1).History = request.History ++ response1.Messages) := by
  constructor
  · simp only [Agent.Invoke, hresp, hcalls]
  · intro response1
    exact ⟨rfl, rfl, rfl, rfl, rfl, rfl⟩

/-- C9 witness: a caller request with System "sys", MaxCompletionTokens 5
and Temperature 1; after the tool-call turn the recursive request carries
only the concatenated history. -/
theorem nextTurn_request_resets_params_witness :
    (c9agent.Invoke Ctx.background 1 c9req =
      ((c9agent.Invoke Ctx.background 0
          (nextTurnRequest c9req
            (c9agent.dispatchToolCalls Ctx.background (c9call :: []) c9resp))).1,
        c9agent.transportedRequest c9req ::
          (c9agent.Invoke Ctx.background 0
            (nextTurnRequest c9req
              (c9agent.dispatchToolCalls Ctx.background (c9call :: []) c9resp))).2)) ∧
    ((nextTurnRequest c9req c9resp).System = "" ∧
      (nextTurnRequest c9req c9resp).MaxCompletionTokens = 0 ∧
      (nextTurnRequest c9req c9resp).Temperature = 0 ∧
      (nextTurnRequest c9req c9resp).ToolUsage = ToolUsage.auto ∧
      (nextTurnRequest c9req c9resp).Tools = [] ∧
      (nextTurnRequest c9req c9resp).History = c9req.History ++ c9resp.Messages) :=
  let h := nextTurn_request_resets_params c9agent Ctx.background 0 c9req c9resp c9call []
    (by rfl) (by rfl)
  ⟨h.1, h.2 c9resp⟩

/-- C10: a failed dispatch (retries exhausted or tool-not-found) appends a
ToolResultMessage — kind tool_result, role tool — whose Result is the raw
error text and whose ToolCall is the original call; and the dispatch loop
never emits the distinct ToolErrorMessage variant: every message it appends
is a ToolResultMessage. -/
theorem failed_dispatch_is_tool_result (a : Agent) (ctx : Ctx)
    (toolCall : ToolCall) (e : String)
    (h : a.CallTool ctx toolCall = Except.error e) :
    (a.dispatchedMessage ctx toolCall = Message.toolResultMessage toolCall e) ∧
    ((a.dispatchedMessage ctx toolCall).kind = MessageKind.toolResult) ∧
    ((a.dispatchedMessage ctx toolCall).role = MessageRole.tool) ∧
    (∀ toolCalls response m, m ∈ (a.dispatchToolCalls ctx toolCalls response).Messages →
      m ∈ response.Messages ∨
      ∃ tc result, m = Message.toolResultMessage tc result) := by
  have hd : a.dispatchedMessage ctx toolCall = Message.toolResultMessage toolCall e := by
    unfold Agent.dispatchedMessage
    rw [h]
    rfl
  refine ⟨hd, by rw [hd]; rfl, by rw [hd]; rfl, ?_⟩
  intro toolCalls response m hm
  rw [dispatchToolCalls_messages] at hm
  rcases List.mem_append.mp hm with hmem | hmem
  · exact Or.inl hmem
  · right
    obtain ⟨tc, _htc, hmsg⟩ := List.mem_map.mp hmem
    unfold Agent.dispatchedMessage at hmsg
    cases hct : a.CallTool ctx tc with
    | error e2 =>
      rw [hct] at hmsg
      exact ⟨tc, e2, hmsg.symm⟩
    | ok message =>
      rw [hct] at hmsg
      unfold Agent.CallTool at hct
      cases hft : a.findTool tc.Name with
      | error e3 =>
        rw [hft] at hct
        simp at hct
      | ok targetTool =>
        rw [hft] at hct
        unfold Agent.executeToolWithRetry at hct
        obtain ⟨tc2, result, hshape, _⟩ := retryLoop_ok_shape a ctx targetTool _ _ _ _ _ _ _ _ hct
        refine ⟨tc2, result, ?_⟩
        rw [← hmsg, hshape]

/-- C10 witness: tool-not-found produces a ToolResultMessage (kind
tool_result, role tool) carrying the raw error text. -/
theorem failed_dispatch_is_tool_result_witness :
    (c10agent.dispatchedMessage Ctx.background c10call =
      Message.toolResultMessage c10call "tool not found: ghost") ∧
    ((c10agent.dispatchedMessage Ctx.background c10call).kind = MessageKind.toolResult) ∧
    ((c10agent.dispatchedMessage Ctx.background c10call).role = MessageRole.tool) :=
  let h := failed_dispatch_is_tool_result c10agent Ctx.background c10call
    "tool not found: ghost" (by rfl)
  ⟨h.1, h.2.1, h.2.2.1⟩
